import Mathlib

/-!
Verification of the bitarr scan engine: a shallow embedding of the core
scanner (checksum engine, device resolver, tree walker, scan orchestrator)
together with proofs about its change-classification, reconciliation,
error-handling and concurrency behaviour.

Machine integers do not overflow in the modelled code paths (Python ints are
unbounded), so sizes, timestamps and ids are modelled as `Nat`.
Timestamps (mtimes and checksum observation times) are abstract `Nat` time
points compared for equality exactly as the source compares its values.
-/

namespace Bitarr

/-! ## String primitives

The Python string operations the core relies on, modelled over the character
lists of Lean strings (so that every definition evaluates on concrete
inputs). -/

/-- Python `s.startswith(pre)`. -/
def str_startsWith (s pre : String) : Bool :=
  pre.toList.isPrefixOf s.toList

/-- Splitting on a one-character separator (Python `s.split(sep)` /
`str.splitOn` for the separators used by the core). -/
def splitOnCharAux (sep : Char) : List Char → List Char → List (List Char)
  | [], acc => [acc.reverse]
  | c :: rest, acc =>
    if c = sep then acc.reverse :: splitOnCharAux sep rest []
    else splitOnCharAux sep rest (c :: acc)

/-- Splitting a string on a one-character separator. -/
def splitOnChar (sep : Char) (s : String) : List String :=
  (splitOnCharAux sep s.toList []).map String.mk

/-- Joining with a separator (Python `sep.join`). -/
def joinWith (sep : String) : List String → String
  | [] => ""
  | [x] => x
  | x :: y :: xs => x ++ sep ++ joinWith sep (y :: xs)

/-- ASCII lowercasing of one character (Python `str.lower` on the ASCII
extensions the type map contains). -/
def charToLower (c : Char) : Char :=
  if 65 ≤ c.toNat ∧ c.toNat ≤ 90 then Char.ofNat (c.toNat + 32) else c

/-- ASCII lowercasing of a string. -/
def strToLower (s : String) : String :=
  String.mk (s.toList.map charToLower)

/-! ## Checksum engine (`bitarr/core/scanner/checksum.py`) -/

/-- The unconditionally supported algorithms (`CHECKSUM_ALGORITHMS` base table). -/
def base_algorithms : List String := ["md5", "sha1", "sha256", "sha512", "blake2b"]

/-- The supported-algorithm table, extended when the optional libraries are
importable (`XXHASH_AVAILABLE` / `BLAKE3_AVAILABLE`). -/
def checksum_algorithms (xxhashAvailable blake3Available : Bool) : List String :=
  base_algorithms ++ (if xxhashAvailable then ["xxhash64"] else [])
    ++ (if blake3Available then ["blake3"] else [])

/-- A hex digit character: 0-9 then lowercase a-f, as produced by `hexdigest()`. -/
def hexDigitChar (n : Nat) : Char :=
  if n < 10 then Char.ofNat (48 + n) else Char.ofNat (87 + n)

/-- Fuel-indexed digit recursion of the hexadecimal notation (the fuel is an
upper bound on the number of digits and is never exhausted). -/
def hexCharsAux : Nat → Nat → List Char
  | 0, _ => []
  | fuel + 1, n =>
    if n < 16 then [hexDigitChar n]
    else hexCharsAux fuel (n / 16) ++ [hexDigitChar (n % 16)]

/-- Lowercase hexadecimal notation of a natural number. -/
def hexChars (n : Nat) : List Char := hexCharsAux (n + 1) n

/-- The lowercase hex digest string of a hash value
(model of `hasher.hexdigest()` on an abstract hash function). -/
def hexDigest (hash : List Nat → Nat) (bytes : List Nat) : String :=
  String.mk (hexChars (hash bytes))

/-- The bytes absorbed by the read loop of `calculate_stream_checksum`:
`stream.read(block_size)` blocks are fed to the hasher until a read
returns no data. -/
def streamAbsorbAux (blockSize : Nat) : Nat → List Nat → List Nat
  | 0, _ => []
  | fuel + 1, content =>
    if blockSize = 0 then []
    else if content.isEmpty then []
    else content.take blockSize ++ streamAbsorbAux blockSize fuel (content.drop blockSize)

/-- The absorbed bytes of the read loop; the fuel bounds the number of reads
and is never exhausted. -/
def streamAbsorb (blockSize : Nat) (content : List Nat) : List Nat :=
  streamAbsorbAux blockSize content.length content

/-- One entry of the scanned filesystem, as seen through `os.stat`, `open` and
`os.path.exists`: the stat data plus the readable content
(`content = none` models a file that exists but cannot be opened or read). -/
structure DiskFile where
  isFile : Bool
  size : Nat
  mtime : Nat
  content : Option (List Nat)
deriving DecidableEq, Repr

/-- The filesystem: an association of paths to disk files.  A path that is
absent does not exist on disk. -/
def lookupFS (fs : List (String × DiskFile)) (p : String) : Option DiskFile :=
  (fs.find? fun e => e.1 == p).map (fun e => e.2)

/-- The readable contents of a path: `none` when the file does not exist or
cannot be opened or read. -/
def readTarget (fs : List (String × DiskFile)) (p : String) : Option (List Nat) :=
  (lookupFS fs p).bind (fun df => df.content)

/-- Model of `ChecksumCalculator.calculate_file_checksum`: open the file,
absorb it block by block, return the hex digest; return `none` (the `except`
branch catching `IOError`, `PermissionError`, `FileNotFoundError`) when the
file cannot be opened or read. -/
def calculate_file_checksum (hash : List Nat → Nat) (blockSize : Nat)
    (fs : List (String × DiskFile)) (p : String) : Option String :=
  match readTarget fs p with
  | none => none
  | some bytes => some (hexDigest hash (streamAbsorb blockSize bytes))

/-- Characters allowed in a lowercase hexadecimal digest. -/
def isLowerHexChar (c : Char) : Bool :=
  "0123456789abcdef".toList.contains c

theorem hexDigitChar_lower (m : Nat) (hm : m < 16) :
    isLowerHexChar (hexDigitChar m) = true := by
  interval_cases m <;> decide

theorem hexCharsAux_lower (fuel : Nat) :
    ∀ (n : Nat), ∀ c ∈ hexCharsAux fuel n, isLowerHexChar c = true := by
  induction fuel with
  | zero =>
    intro n c hc
    exact absurd hc (List.not_mem_nil c)
  | succ fuel ih =>
    intro n c hc
    rw [hexCharsAux] at hc
    split at hc
    · rcases List.mem_singleton.mp hc with rfl
      exact hexDigitChar_lower n (by omega)
    · rcases List.mem_append.mp hc with h | h
      · exact ih (n / 16) c h
      · rcases List.mem_singleton.mp h with rfl
        exact hexDigitChar_lower (n % 16) (Nat.mod_lt n (by omega))

theorem hexChars_lower (n : Nat) : ∀ c ∈ hexChars n, isLowerHexChar c = true :=
  hexCharsAux_lower (n + 1) n

theorem streamAbsorb_all (bs : Nat) (hbs : 0 < bs) (content : List Nat) :
    streamAbsorb bs content = content := by
  have aux : ∀ (k : Nat) (l : List Nat), l.length ≤ k → streamAbsorbAux bs k l = l := by
    intro k
    induction k with
    | zero =>
      intro l hl
      have : l = [] := List.length_eq_zero.mp (Nat.le_zero.mp hl)
      subst this
      rfl
    | succ k ih =>
      intro l hl
      rw [streamAbsorbAux]
      rw [if_neg (by omega)]
      by_cases hemp : l.isEmpty
      · rw [if_pos hemp]
        exact (List.isEmpty_iff.mp hemp).symm
      · rw [if_neg hemp]
        have hp : 0 < l.length := by
          cases l with
          | nil => simp at hemp
          | cons a l => simp
        have hlen : (l.drop bs).length ≤ k := by
          simp only [List.length_drop]
          omega
        rw [ih (l.drop bs) hlen, List.take_append_drop]
  exact aux content.length content (Nat.le_refl _)

/-! ## Device resolver (`bitarr/core/scanner/device_detector.py`) -/

/-- One line of the OS mount table (`/proc/mounts`), with the
`os.path.exists(mount_point) and os.access(mount_point, os.R_OK)` gate
recorded as the `accessible` flag. -/
structure MountEntry where
  deviceId : String
  mountPoint : String
  fsType : String
  accessible : Bool
deriving DecidableEq, Repr

/-- Filesystem types excluded by `detect_devices` (`exclude_fs_types`). -/
def exclude_fs_types : List String :=
  ["proc", "sysfs", "devpts", "cgroup", "tmpfs", "securityfs",
   "fusectl", "debugfs", "configfs", "hugetlbfs", "mqueue",
   "pstore", "efivarfs", "fuse.snapfuse", "fuse.gvfsd-fuse",
   "squashfs", "nsfs", "binfmt_misc", "rpc_pipefs", "devtmpfs"]

/-- Mount point prefixes excluded by `detect_devices` (`exclude_mount_prefixes`). -/
def exclude_mount_prefixes : List String :=
  ["/proc", "/sys", "/dev", "/run", "/snap", "/boot",
   "/opt/piavpn", "/var/snap", "/run/snapd"]

/-- Substring containment on character lists (Python `in` on strings). -/
def listContainsSub (sub : List Char) : List Char → Bool
  | [] => sub.isEmpty
  | c :: rest => sub.isPrefixOf (c :: rest) || listContainsSub sub rest

/-- Python `sub in s` for strings. -/
def strContains (s sub : String) : Bool :=
  listContainsSub sub.toList s.toList

/-- Model of `DeviceDetector.detect_devices`: filter the mount table, dropping
virtual filesystem types, excluded mount point prefixes, loopback devices, the
`rootfs` duplicate, and inaccessible mount points.  (The usage-statistics and
display-name augmentation of the winner is not needed by any property here.) -/
def detect_devices (mounts : List MountEntry) : List MountEntry :=
  mounts.filter fun m =>
    !(exclude_fs_types.contains m.fsType)
    && !(exclude_mount_prefixes.any fun p => str_startsWith m.mountPoint p)
    && !(strContains m.deviceId "loop")
    && !(m.deviceId == "rootfs")
    && m.accessible

/-- `sorted(matching_devices, key=len(mount_point), reverse=True)[0]`:
Python's sort is stable, so the result is the first entry of maximal
mount-point length. -/
def selectLongestMount (ms : List MountEntry) : Option MountEntry :=
  ms.foldl
    (fun best m =>
      match best with
      | none => some m
      | some b => if m.mountPoint.length > b.mountPoint.length then some m else some b)
    none

/-- Model of `DeviceDetector.get_device_by_path`: `none` when the path does not
exist; otherwise keep the detected devices whose mount point is a raw string
prefix of the path (`path.startswith(device.mount_point)`) and return the one
with the longest mount point. -/
def get_device_by_path (mounts : List MountEntry) (pathExists : Bool)
    (path : String) : Option MountEntry :=
  if !pathExists then none
  else
    selectLongestMount
      ((detect_devices mounts).filter fun m => str_startsWith path m.mountPoint)

/-- The slash-separated components of a path, empty components dropped. -/
def pathComponents (s : String) : List String :=
  (splitOnChar '/' s).filter fun c => c ≠ ""

/-- Modelled from the spec: "keep only those that are an ancestor directory of
`path` (prefix match on path components, not raw string prefix, to avoid
`/data2` matching `/data`)".  This is the comparison definition for the
refinement claim; the source (`get_device_by_path` above) uses a raw string
prefix instead. -/
def isComponentAncestor (mountPoint path : String) : Bool :=
  (pathComponents mountPoint).isPrefixOf (pathComponents path)

theorem selectLongestMount_mem_max (ms : List MountEntry) (d : MountEntry)
    (hd : selectLongestMount ms = some d) :
    d ∈ ms ∧ ∀ m ∈ ms, m.mountPoint.length ≤ d.mountPoint.length := by
  have aux : ∀ (l : List MountEntry) (acc : Option MountEntry) (r : MountEntry),
      l.foldl
        (fun best m =>
          match best with
          | none => some m
          | some b => if m.mountPoint.length > b.mountPoint.length then some m else some b)
        acc = some r →
      (r ∈ l ∨ acc = some r) ∧
      (∀ m ∈ l, m.mountPoint.length ≤ r.mountPoint.length) ∧
      (∀ b, acc = some b → b.mountPoint.length ≤ r.mountPoint.length) := by
    intro l
    induction l with
    | nil =>
      intro acc r h
      simp only [List.foldl_nil] at h
      refine ⟨Or.inr h, ?_, ?_⟩
      · intro m hm; exact absurd hm (List.not_mem_nil m)
      · intro b hb; rw [h] at hb; cases hb; exact Nat.le_refl _
    | cons x xs ih =>
      intro acc r h
      simp only [List.foldl_cons] at h
      cases acc with
      | none =>
        rcases ih (some x) r h with ⟨hmem, hmax, hacc⟩
        refine ⟨?_, ?_, ?_⟩
        · rcases hmem with hin | heq
          · exact Or.inl (List.mem_cons_of_mem x hin)
          · cases heq; exact Or.inl (List.mem_cons_self x xs)
        · intro m hm
          rcases List.mem_cons.mp hm with rfl | hin
          · exact hacc m rfl
          · exact hmax m hin
        · intro b hb; cases hb
      | some a =>
        by_cases hgt : x.mountPoint.length > a.mountPoint.length
        · simp only [hgt, if_pos] at h
          rcases ih (some x) r h with ⟨hmem, hmax, hacc⟩
          refine ⟨?_, ?_, ?_⟩
          · rcases hmem with hin | heq
            · exact Or.inl (List.mem_cons_of_mem x hin)
            · cases heq; exact Or.inl (List.mem_cons_self x xs)
          · intro m hm
            rcases List.mem_cons.mp hm with rfl | hin
            · exact hacc m rfl
            · exact hmax m hin
          · intro b hb
            cases hb
            exact Nat.le_trans (Nat.le_of_lt hgt) (hacc x rfl)
        · simp only [hgt, if_neg, if_false] at h
          rcases ih (some a) r h with ⟨hmem, hmax, hacc⟩
          refine ⟨?_, ?_, ?_⟩
          · rcases hmem with hin | heq
            · exact Or.inl (List.mem_cons_of_mem x hin)
            · exact Or.inr heq
          · intro m hm
            rcases List.mem_cons.mp hm with rfl | hin
            · exact Nat.le_trans (Nat.le_of_not_lt hgt) (hacc a rfl)
            · exact hmax m hin
          · exact hacc
  rcases aux ms none d hd with ⟨hmem, hmax, _⟩
  rcases hmem with hin | heq
  · exact ⟨hin, hmax⟩
  · cases heq

/-! ## Tree walker (`bitarr/core/scanner/file_utils.py`) -/

/-- A directory tree as enumerated by `os.walk`. -/
inductive FsEntry where
  | file (nm : String)
  | dir (nm : String) (children : List FsEntry)

/-- `os.path.join(root, name)` for absolute walking. -/
def joinPath (d nm : String) : String := d ++ "/" ++ nm

mutual

/-- Structural size of a tree entry, used as the walk's fuel bound. -/
def FsEntry.weight : FsEntry → Nat
  | .file _ => 1
  | .dir _ children => 1 + weightList children

/-- Structural size of a list of tree entries. -/
def weightList : List FsEntry → Nat
  | [] => 1
  | e :: rest => FsEntry.weight e + weightList rest

end

/-- Whether `os.walk` stops at this directory: `current_depth >= max_depth`
clears `dirs` and `continue`s, so neither files nor subdirectories of the
directory are produced. -/
def depthStop (maxDepth : Option Nat) (depth : Nat) : Bool :=
  match maxDepth with
  | none => false
  | some m => decide (depth ≥ m)

/-- The files of one directory surviving the glob-pattern filter
(`Path(file_path).match(pattern)` is the abstract matcher `pm`). -/
def dirFiles (pm : String → String → Bool) (excludePatterns : List String)
    (dirPath : String) (entries : List FsEntry) : List String :=
  entries.filterMap fun e =>
    match e with
    | FsEntry.file nm =>
      let fp := joinPath dirPath nm
      if excludePatterns.any (fun pat => pm pat fp) then none else some fp
    | FsEntry.dir _ _ => none

/-- Visiting one directory of the walk (`os.walk` top-down): unless the depth
limit stops the visit, yield the directory's files surviving the pattern
filter, then recurse in order into the subdirectories whose names survive the
in-place pruning (`dirs[:] = [d for d in dirs if d not in exclude_dirs]`).
The fuel is an upper bound on the nesting depth, consumed once per level and
never exhausted for the bound `walk_directory` passes. -/
def walkAux (pm : String → String → Bool) (excludeDirs excludePatterns : List String)
    (maxDepth : Option Nat) : Nat → Nat → String → List FsEntry → List String
  | 0, _, _, _ => []
  | fuel + 1, depth, dirPath, entries =>
    if depthStop maxDepth depth then []
    else
      dirFiles pm excludePatterns dirPath entries ++
      (entries.map (fun e =>
        match e with
        | FsEntry.file _ => []
        | FsEntry.dir nm children =>
          if excludeDirs.contains nm then []
          else walkAux pm excludeDirs excludePatterns maxDepth fuel (depth + 1)
                 (joinPath dirPath nm) children)).flatten

/-- Model of `walk_directory`: `tree = none` models a root that does not exist
or is not a directory (the generator prints an error and yields nothing);
the `exclude_dirs or []` / `exclude_patterns or []` defaulting is applied on
the optional arguments. -/
def walk_directory (pm : String → String → Bool) (top : String)
    (excludeDirs excludePatterns : Option (List String)) (maxDepth : Option Nat)
    (tree : Option (List FsEntry)) : List String :=
  match tree with
  | none => []
  | some entries =>
      walkAux pm (excludeDirs.getD []) (excludePatterns.getD []) maxDepth
        (weightList entries) 0 top entries

/-- Model of `FileScanner._count_files`: iterate the same generator and count. -/
def count_files (pm : String → String → Bool) (top : String)
    (excludeDirs excludePatterns : Option (List String))
    (tree : Option (List FsEntry)) : Nat :=
  (walk_directory pm top excludeDirs excludePatterns none tree).length

/-! ## Persistence rows (`bitarr/db/models.py`, as used by the core) -/

/-- A `files` row. -/
structure FileRow where
  id : Nat
  path : String
  filename : String
  directory : String
  storageDeviceId : Nat
  size : Nat
  lastModified : Nat
  fileType : String
  firstSeen : Nat
  lastSeen : Nat
  isDeleted : Bool
deriving DecidableEq, Repr

/-- A `checksums` row. -/
structure ChecksumRow where
  id : Nat
  fileId : Nat
  scanId : Nat
  checksumValue : String
  checksumMethod : String
  timestamp : Nat
  status : String
  previousChecksumId : Option Nat
deriving DecidableEq, Repr

/-- A `scans` row (the fields the core reads or writes). -/
structure ScanRow where
  id : Nat
  topLevelPath : String
  status : String
  checksumMethod : String
  filesScanned : Nat
  filesUnchanged : Nat
  filesModified : Nat
  filesCorrupted : Nat
  filesMissing : Nat
  filesNew : Nat
  totalSize : Nat
  errorMessage : Option String
deriving DecidableEq, Repr

/-- A `scan_errors` row. -/
structure ScanErrorRow where
  scanId : Nat
  filePath : String
  errorType : String
  errorMessage : String
deriving DecidableEq, Repr

/-- The database reachable through `DatabaseManager`, with SQLite's rowid
allocation modelled by the `next*Id` counters. -/
structure DB where
  files : List FileRow
  checksums : List ChecksumRow
  scanErrors : List ScanErrorRow
  nextFileId : Nat
  nextChecksumId : Nat
deriving DecidableEq, Repr

/-- `db.get_file(path=..., storage_device_id=...)`:
`SELECT * FROM files WHERE path = ? AND storage_device_id = ?`. -/
def DB.getFile (db : DB) (path : String) (dev : Nat) : Option FileRow :=
  db.files.find? fun f => f.path == path && f.storageDeviceId == dev

/-- `db.add_file`: insert the row and return the assigned id. -/
def DB.addFile (db : DB) (f : FileRow) : DB × Nat :=
  let fid := db.nextFileId
  ({ db with files := db.files ++ [{ f with id := fid }], nextFileId := fid + 1 }, fid)

/-- `db.update_file`: full-row update keyed by id. -/
def DB.updateFile (db : DB) (f : FileRow) : DB :=
  { db with files := db.files.map fun g => if g.id = f.id then f else g }

/-- `db.add_checksum`: insert the row and return the assigned id. -/
def DB.addChecksum (db : DB) (c : ChecksumRow) : DB × Nat :=
  let cid := db.nextChecksumId
  ({ db with
     checksums := db.checksums ++ [{ c with id := cid }],
     nextChecksumId := cid + 1 }, cid)

/-- `db.add_scan_error`. -/
def DB.addScanError (db : DB) (e : ScanErrorRow) : DB :=
  { db with scanErrors := db.scanErrors ++ [e] }

/-- `db.get_file_checksums(file_id, limit=1)`:
`SELECT * FROM checksums WHERE file_id = ? ORDER BY timestamp DESC LIMIT 1`,
the first row in table order among those of maximal timestamp. -/
def latestChecksumFor (db : DB) (fid : Nat) : Option ChecksumRow :=
  (db.checksums.filter fun c => c.fileId == fid).foldl
    (fun best c =>
      match best with
      | none => some c
      | some b => if c.timestamp > b.timestamp then some c else some b)
    none

/-! ## Scan orchestrator (`bitarr/core/scanner/scanner.py`) -/

/-- The immutable environment of one scan run: the bound hash function and
block size of the `ChecksumCalculator`, the filesystem, and the wall-clock
instant (all `datetime.now` reads during per-file processing, abstracted to a
single time point). -/
structure ScanEnv where
  hash : List Nat → Nat
  blockSize : Nat
  fs : List (String × DiskFile)
  now : Nat

/-- The mutable state shared by the workers: the database, the in-memory
`current_scan` row, and the scanner's `total_size` and `files_processed`
counters. -/
structure ScannerState where
  db : DB
  currentScan : ScanRow
  totalSize : Nat
  filesProcessed : Nat
deriving DecidableEq, Repr

/-- `split_path_components`: `(parent, name, str(path))` of a file path. -/
def split_path_components (fp : String) : String × String × String :=
  let parts := splitOnChar '/' fp
  (joinWith "/" parts.dropLast, parts.getLastD "", fp)

/-- `determine_file_type`: coarse classification from the lowercased extension. -/
def determine_file_type (fp : String) : String :=
  let parts := splitOnChar '.' fp
  let ext := if parts.length ≤ 1 then "" else "." ++ strToLower (parts.getLastD "")
  let typeMap : List (String × String) :=
    [(".txt", "text"), (".pdf", "pdf"), (".doc", "word"), (".docx", "word"),
     (".xls", "excel"), (".xlsx", "excel"), (".ppt", "powerpoint"), (".pptx", "powerpoint"),
     (".jpg", "image"), (".jpeg", "image"), (".png", "image"), (".gif", "image"),
     (".bmp", "image"), (".svg", "image"), (".webp", "image"),
     (".mp3", "audio"), (".wav", "audio"), (".ogg", "audio"), (".flac", "audio"),
     (".aac", "audio"),
     (".mp4", "video"), (".avi", "video"), (".mkv", "video"), (".mov", "video"),
     (".wmv", "video"),
     (".zip", "archive"), (".rar", "archive"), (".7z", "archive"), (".tar", "archive"),
     (".gz", "archive"),
     (".py", "code"), (".js", "code"), (".html", "code"), (".css", "code"),
     (".java", "code"), (".cpp", "code"), (".c", "code"), (".php", "code"),
     (".go", "code"), (".rb", "code"),
     (".exe", "executable"), (".dll", "library"), (".so", "library"), (".sys", "system"),
     (".conf", "config"), (".log", "log"), (".db", "database"), (".sqlite", "database")]
  match typeMap.find? (fun e => e.1 == ext) with
  | some e => e.2
  | none => "unknown"

/-- The `File` row created for a path first seen by `_process_file`
(the id is assigned by `add_file`). -/
def mkNewRow (fp : String) (deviceId : Nat) (md : DiskFile) (now : Nat) : FileRow :=
  let parts := split_path_components fp
  { id := 0,
    path := parts.2.2,
    filename := parts.2.1,
    directory := parts.1,
    storageDeviceId := deviceId,
    size := md.size,
    lastModified := md.mtime,
    fileType := determine_file_type fp,
    firstSeen := now,
    lastSeen := now,
    isDeleted := false }

/-- The update `_process_file` applies to an existing `File` row: refresh
size, mtime and last-seen, clear the deleted flag. -/
def updatedRow (f0 : FileRow) (md : DiskFile) (now : Nat) : FileRow :=
  { f0 with
    size := md.size,
    lastModified := md.mtime,
    lastSeen := now,
    isDeleted := false }

/-- The classification block of `_process_file`: starting from the default
`file_status`, compare the new digest with the prior checksum and bump the
matching scan counter.  Mirrors
`if file_status == "unchanged" and prev_checksum: ... elif file_status == "new": ...`. -/
def classifyAndCount (scan : ScanRow) (fileStatus : String)
    (prev : Option ChecksumRow) (v : String) (curMtime : Nat) : String × ScanRow :=
  match prev with
  | some p =>
    if fileStatus = "unchanged" then
      if v ≠ p.checksumValue then
        if curMtime ≠ p.timestamp then
          ("modified", { scan with filesModified := scan.filesModified + 1 })
        else
          ("corrupted", { scan with filesCorrupted := scan.filesCorrupted + 1 })
      else
        (fileStatus, { scan with filesUnchanged := scan.filesUnchanged + 1 })
    else if fileStatus = "new" then
      (fileStatus, { scan with filesNew := scan.filesNew + 1 })
    else (fileStatus, scan)
  | none =>
    if fileStatus = "new" then
      (fileStatus, { scan with filesNew := scan.filesNew + 1 })
    else (fileStatus, scan)

/-- The tail of `_process_file` after the `File` row has been fetched or
created: compute the checksum (recording a `checksum_error` and stopping when
it fails), classify, insert the `Checksum` row and persist the scan counters. -/
def finishFile (env : ScanEnv) (st : ScannerState) (filePath : String)
    (fid : Nat) (fileStatus : String) (prev : Option ChecksumRow)
    (curMtime : Nat) : ScannerState :=
  match calculate_file_checksum env.hash env.blockSize env.fs filePath with
  | none =>
      { st with
        db := st.db.addScanError
          { scanId := st.currentScan.id,
            filePath := filePath,
            errorType := "checksum_error",
            errorMessage := "Failed to calculate checksum" } }
  | some v =>
    if v = "" then
      { st with
        db := st.db.addScanError
          { scanId := st.currentScan.id,
            filePath := filePath,
            errorType := "checksum_error",
            errorMessage := "Failed to calculate checksum" } }
    else
      let sc := classifyAndCount st.currentScan fileStatus prev v curMtime
      let c : ChecksumRow :=
        { id := 0,
          fileId := fid,
          scanId := sc.2.id,
          checksumValue := v,
          checksumMethod := sc.2.checksumMethod,
          timestamp := env.now,
          status := sc.1,
          previousChecksumId := prev.map (fun p => p.id) }
      { st with
        db := (st.db.addChecksum c).1,
        currentScan := sc.2 }

/-- Model of `FileScanner._process_file`. -/
def process_file (env : ScanEnv) (it : String × Nat) (st : ScannerState) :
    ScannerState :=
  match lookupFS env.fs it.1 with
  | none => st
  | some md =>
    if md.isFile = false then st
    else
      let path := (split_path_components it.1).2.2
      match st.db.getFile path it.2 with
      | none =>
          let r := st.db.addFile (mkNewRow it.1 it.2 md env.now)
          let st1 : ScannerState :=
            { st with
              db := r.1,
              totalSize := st.totalSize + md.size }
          finishFile env st1 it.1 r.2 "new" none md.mtime
      | some f0 =>
          let f1 := updatedRow f0 md env.now
          let st1 : ScannerState :=
            { st with
              db := st.db.updateFile f1,
              totalSize := st.totalSize + md.size }
          let prev := latestChecksumFor st1.db f1.id
          finishFile env st1 it.1 f1.id "unchanged" prev md.mtime

/-- One element of the shared work queue: a `(file_path, storage_device_id)`
pair or the `None` sentinel.  An `item` additionally carries an optional
injected fault, modelling an arbitrary exception raised inside
`_process_file` for that file. -/
inductive QueueItem where
  | sentinel
  | item (filePath : String) (deviceId : Nat) (fault : Option String)
deriving DecidableEq, Repr

/-- Model of `FileScanner._worker` (the stop flag is never set in the runs
modelled here): dequeue until the sentinel; process each item, counting it in
`files_processed`; any exception from processing one file is caught, recorded
as a `processing_error` `ScanError`, and the loop continues with the next
item (`files_processed` is not incremented for the failed item, since the
increment follows `_process_file` inside the `try`). -/
def worker_run (env : ScanEnv) (st : ScannerState) : List QueueItem → ScannerState
  | [] => st
  | QueueItem.sentinel :: _ => st
  | QueueItem.item fp dev fault :: rest =>
    match fault with
    | some msg =>
        worker_run env
          { st with
            db := st.db.addScanError
              { scanId := st.currentScan.id,
                filePath := fp,
                errorType := "processing_error",
                errorMessage := msg } }
          rest
    | none =>
        let st1 := process_file env (fp, dev) st
        worker_run env { st1 with filesProcessed := st1.filesProcessed + 1 } rest

/-- Fault-free queue items for a list of walked paths, all on one device. -/
def pathItems (paths : List String) (dev : Nat) : List QueueItem :=
  paths.map fun p => QueueItem.item p dev none

/-- `os.path.exists` over the modelled filesystem. -/
def fsExists (fs : List (String × DiskFile)) (p : String) : Bool :=
  (lookupFS fs p).isSome

/-- The rows selected by the reconciliation query of `find_missing_files`
(`directory LIKE '<top>%' AND storage_device_id = ? AND is_deleted = 0`)
that then fail the `os.path.exists` re-check.  The `LIKE` filter is a raw
string prefix on the directory column. -/
def missingTarget (fs : List (String × DiskFile)) (top : String) (dev : Nat)
    (f : FileRow) : Bool :=
  str_startsWith f.directory top && (f.storageDeviceId == dev)
    && (!f.isDeleted) && (!fsExists fs f.path)

/-- Model of `FileScanner.find_missing_files`: mark every matching row deleted
(`update_file`) and return the list of missing files. -/
def find_missing_files (fs : List (String × DiskFile)) (top : String) (dev : Nat)
    (db : DB) : DB × List FileRow :=
  ({ db with
     files := db.files.map fun f =>
       if missingTarget fs top dev f then { f with isDeleted := true } else f },
   db.files.filter (missingTarget fs top dev))

/-- Model of `FileScanner.update_missing_files_status`: write a `missing`
`Checksum` row with an empty digest for each missing file and set the scan's
missing counter.  Present in the source but never invoked by `scan()`. -/
def update_missing_files_status (now : Nat) (scan : ScanRow)
    (missingFiles : List FileRow) (db : DB) : DB × ScanRow :=
  if missingFiles.isEmpty then (db, scan)
  else
    let db1 := missingFiles.foldl
      (fun d f =>
        (d.addChecksum
          { id := 0,
            fileId := f.id,
            scanId := scan.id,
            checksumValue := "",
            checksumMethod := scan.checksumMethod,
            timestamp := now,
            status := "missing",
            previousChecksumId := none }).1)
      db
    (db1, { scan with filesMissing := missingFiles.length })

/-- The completion block of the v1.1.0 `scan()` after the worker pool drains
(stop flag unset): set status `completed`, persist `total_size`, run
`find_missing_files` and store its count in `files_missing`, and issue the
final `update_scan`.  `files_scanned` is not assigned anywhere in this
version of `scan()`, and `update_missing_files_status` is not called. -/
def finalizeScan (fs : List (String × DiskFile)) (top : String) (dev : Nat)
    (st : ScannerState) : ScannerState :=
  let scan1 := { st.currentScan with status := "completed", totalSize := st.totalSize }
  let r := find_missing_files fs top dev st.db
  let scan2 := { scan1 with filesMissing := r.2.length }
  { st with db := r.1, currentScan := scan2 }

/-- The result of a full scan run: the final state (whose `currentScan` is
the row written by the final `update_scan`) and the `total_files` estimate. -/
structure ScanRunResult where
  state : ScannerState
  totalFiles : Nat
deriving DecidableEq, Repr

/-- The body of the v1.1.0 `scan()` from the counting pass onwards, with the
worker pool serialized into one in-order run of the enqueued items (the
per-path processing order of a multi-worker run is modelled separately as a
permutation of this list). -/
def run_scan (env : ScanEnv) (pm : String → String → Bool)
    (tree : Option (List FsEntry)) (top : String) (dev : Nat)
    (excludeDirs excludePatterns : Option (List String))
    (st0 : ScannerState) : ScanRunResult :=
  let totalFiles := count_files pm top excludeDirs excludePatterns tree
  let paths := walk_directory pm top excludeDirs excludePatterns none tree
  let st1 := worker_run env st0 (pathItems paths dev ++ [QueueItem.sentinel])
  { state := finalizeScan env.fs top dev st1, totalFiles := totalFiles }

/-! ### Setup sequence of `scan()` (`scanner.py`, v1.1.0 entry point) -/

/-- The database writes the setup sequence can issue before the traversal. -/
inductive DbOp where
  | hostInsert
  | hostUpdate
  | deviceInsert
  | deviceUpdate
  | scanInsert
deriving DecidableEq, Repr

/-- Model of the setup sequence of `scan()`: validate the root path
(`os.path.exists`, `os.path.isdir`), get-or-create the scan host, construct
the `ChecksumCalculator` (which raises `ValueError` on an unsupported
algorithm), resolve and get-or-create the storage device, then create the
`Scan` record.  Returns the database operations performed and the error
raised, if any. -/
def scanSetup (pathExists pathIsDir : Bool) (xxhashAvailable blake3Available : Bool)
    (checksumMethod : String) (hostKnown deviceKnown : Bool) :
    List DbOp × Option String :=
  if !pathExists then ([], some "Path does not exist")
  else if !pathIsDir then ([], some "Path is not a directory")
  else
    let hostOps := [if hostKnown then DbOp.hostUpdate else DbOp.hostInsert]
    if !(checksum_algorithms xxhashAvailable blake3Available).contains checksumMethod then
      (hostOps, some ("Unsupported checksum algorithm: " ++ checksumMethod))
    else
      let devOps := [if deviceKnown then DbOp.deviceUpdate else DbOp.deviceInsert]
      (hostOps ++ devOps ++ [DbOp.scanInsert], none)

/-! ## Claim theorems -/

/-- C7: for every file path, `calculate_file_checksum` returns the lowercase
hexadecimal digest of the file's contents read sequentially in blocks (the
absorbed blocks reassemble the whole contents), and returns `none` rather
than raising when the file cannot be opened or read. -/
theorem calculate_file_checksum_contract (hash : List Nat → Nat) (bs : Nat)
    (hbs : 0 < bs) (fs : List (String × DiskFile)) (p : String) :
    (readTarget fs p = none → calculate_file_checksum hash bs fs p = none) ∧
    (∀ bytes, readTarget fs p = some bytes →
      calculate_file_checksum hash bs fs p = some (hexDigest hash bytes) ∧
      ∀ c ∈ (hexDigest hash bytes).toList, isLowerHexChar c = true) := by
  constructor
  · intro h
    simp [calculate_file_checksum, h]
  · intro bytes h
    constructor
    · simp [calculate_file_checksum, h, streamAbsorb_all bs hbs]
    · intro c hc
      have he : (hexDigest hash bytes).toList = hexChars (hash bytes) := rfl
      rw [he] at hc
      exact hexChars_lower (hash bytes) c hc

/-- Witness for C7 at a concrete one-byte file with block size 1. -/
theorem calculate_file_checksum_contract_witness :
    0 < 1 ∧
    calculate_file_checksum (fun l => l.foldl (fun a b => a * 256 + b) 1) 1
      [("/d/a.txt", ⟨true, 1, 5, some [171]⟩)] "/d/a.txt"
      = some (hexDigest (fun l => l.foldl (fun a b => a * 256 + b) 1) [171]) :=
  ⟨by decide,
   ((calculate_file_checksum_contract (fun l => l.foldl (fun a b => a * 256 + b) 1)
      1 (by decide) [("/d/a.txt", ⟨true, 1, 5, some [171]⟩)] "/d/a.txt").2
      [171] (by decide)).1⟩

/-- C6: the setup sequence of `scan()` raises before creating any `Scan`
record whenever the root path does not exist, is not a directory, or the
requested checksum algorithm is not in the supported set. -/
theorem scan_setup_fails_fast (pathExists pathIsDir xx b3 : Bool) (m : String)
    (hostKnown deviceKnown : Bool)
    (h : pathExists = false ∨ pathIsDir = false ∨
         (checksum_algorithms xx b3).contains m = false) :
    (scanSetup pathExists pathIsDir xx b3 m hostKnown deviceKnown).2.isSome = true ∧
    DbOp.scanInsert ∉ (scanSetup pathExists pathIsDir xx b3 m hostKnown deviceKnown).1 := by
  rcases h with h | h | h
  · subst h; simp [scanSetup]
  · subst h
    cases pathExists <;> simp [scanSetup]
  · have h' : m ∉ checksum_algorithms xx b3 := by simpa using h
    cases pathExists <;> cases pathIsDir <;>
      simp [scanSetup, h'] <;> cases hostKnown <;> simp

/-- Witness for C6: a request for the unsupported algorithm crc32. -/
theorem scan_setup_fails_fast_witness :
    (true = false ∨ true = false ∨
      (checksum_algorithms false false).contains "crc32" = false) ∧
    ((scanSetup true true false false "crc32" true true).2.isSome = true ∧
     DbOp.scanInsert ∉ (scanSetup true true false false "crc32" true true).1) :=
  ⟨Or.inr (Or.inr (by decide)),
   scan_setup_fails_fast true true false false "crc32" true true
     (Or.inr (Or.inr (by decide)))⟩

/-- C3 counterexample: with a single real mount at `/data`, resolving the
existing path `/data2/file.txt` returns the `/data` device even though
`/data` is not an ancestor directory of the path by path components — the
source matches with a raw `startswith`, not on components. -/
theorem device_by_path_matches_raw_string :
    get_device_by_path [⟨"/dev/sda1", "/data", "ext4", true⟩] true "/data2/file.txt"
      = some ⟨"/dev/sda1", "/data", "ext4", true⟩
    ∧ isComponentAncestor "/data" "/data2/file.txt" = false := by
  constructor
  · decide
  · decide

/-- C3 amended: device resolution keeps the mount-table candidates whose
mount point is a raw string prefix of the path (so `/data` does match a path
under `/data2`), and among the matching candidates returns one with the
longest mount-point path. -/
theorem device_by_path_longest_raw_match (mounts : List MountEntry)
    (path : String) (d : MountEntry)
    (h : get_device_by_path mounts true path = some d) :
    d ∈ detect_devices mounts ∧ str_startsWith path d.mountPoint = true ∧
    ∀ m ∈ detect_devices mounts, str_startsWith path m.mountPoint = true →
      m.mountPoint.length ≤ d.mountPoint.length := by
  unfold get_device_by_path at h
  simp only [Bool.not_true, Bool.false_eq_true, if_false, ite_false] at h
  rcases selectLongestMount_mem_max _ d h with ⟨hmem, hmax⟩
  rcases List.mem_filter.mp hmem with ⟨hdet, hpre⟩
  refine ⟨hdet, hpre, ?_⟩
  intro m hm hs
  exact hmax m (List.mem_filter.mpr ⟨hm, hs⟩)

/-- Witness for C3's amended theorem at a two-mount table. -/
theorem device_by_path_longest_raw_match_witness :
    (get_device_by_path
        [⟨"/dev/sda1", "/", "ext4", true⟩, ⟨"/dev/sdb1", "/data", "ext4", true⟩]
        true "/data/file.txt"
      = some ⟨"/dev/sdb1", "/data", "ext4", true⟩) ∧
    (⟨"/dev/sdb1", "/data", "ext4", true⟩ : MountEntry) ∈
        detect_devices
          [⟨"/dev/sda1", "/", "ext4", true⟩, ⟨"/dev/sdb1", "/data", "ext4", true⟩] ∧
    str_startsWith "/data/file.txt" "/data" = true :=
  ⟨by decide,
   (device_by_path_longest_raw_match
      [⟨"/dev/sda1", "/", "ext4", true⟩, ⟨"/dev/sdb1", "/data", "ext4", true⟩]
      "/data/file.txt" ⟨"/dev/sdb1", "/data", "ext4", true⟩ (by decide)).1,
   (device_by_path_longest_raw_match
      [⟨"/dev/sda1", "/", "ext4", true⟩, ⟨"/dev/sdb1", "/data", "ext4", true⟩]
      "/data/file.txt" ⟨"/dev/sdb1", "/data", "ext4", true⟩ (by decide)).2.1⟩

/-- C1: for a scanned file with an existing `File` row and a prior
`Checksum`, the new digest is compared with the prior digest: equal digests
give status `unchanged` and bump the unchanged counter; different digests
give `modified` (bumping the modified counter) when the file's current mtime
differs from the prior checksum observation's timestamp, and `corrupted`
(bumping the corrupted counter) when the mtime equals that timestamp. -/
theorem process_file_change_classification (env : ScanEnv) (dev : Nat)
    (fp : String) (st : ScannerState) (md : DiskFile) (f0 : FileRow)
    (p : ChecksumRow) (v : String)
    (hmd : lookupFS env.fs fp = some md)
    (hfile : md.isFile = true)
    (hrow : st.db.getFile (split_path_components fp).2.2 dev = some f0)
    (hprev : latestChecksumFor st.db f0.id = some p)
    (hv : calculate_file_checksum env.hash env.blockSize env.fs fp = some v)
    (hne : v ≠ "") :
    (v = p.checksumValue →
      (process_file env (fp, dev) st).db.checksums = st.db.checksums ++
        [{ id := st.db.nextChecksumId,
           fileId := f0.id,
           scanId := st.currentScan.id,
           checksumValue := v,
           checksumMethod := st.currentScan.checksumMethod,
           timestamp := env.now,
           status := "unchanged",
           previousChecksumId := some p.id }] ∧
      (process_file env (fp, dev) st).currentScan.filesUnchanged
        = st.currentScan.filesUnchanged + 1 ∧
      (process_file env (fp, dev) st).currentScan.filesModified
        = st.currentScan.filesModified ∧
      (process_file env (fp, dev) st).currentScan.filesCorrupted
        = st.currentScan.filesCorrupted ∧
      (process_file env (fp, dev) st).currentScan.filesNew
        = st.currentScan.filesNew) ∧
    (v ≠ p.checksumValue → md.mtime ≠ p.timestamp →
      (process_file env (fp, dev) st).db.checksums = st.db.checksums ++
        [{ id := st.db.nextChecksumId,
           fileId := f0.id,
           scanId := st.currentScan.id,
           checksumValue := v,
           checksumMethod := st.currentScan.checksumMethod,
           timestamp := env.now,
           status := "modified",
           previousChecksumId := some p.id }] ∧
      (process_file env (fp, dev) st).currentScan.filesModified
        = st.currentScan.filesModified + 1 ∧
      (process_file env (fp, dev) st).currentScan.filesUnchanged
        = st.currentScan.filesUnchanged ∧
      (process_file env (fp, dev) st).currentScan.filesCorrupted
        = st.currentScan.filesCorrupted ∧
      (process_file env (fp, dev) st).currentScan.filesNew
        = st.currentScan.filesNew) ∧
    (v ≠ p.checksumValue → md.mtime = p.timestamp →
      (process_file env (fp, dev) st).db.checksums = st.db.checksums ++
        [{ id := st.db.nextChecksumId,
           fileId := f0.id,
           scanId := st.currentScan.id,
           checksumValue := v,
           checksumMethod := st.currentScan.checksumMethod,
           timestamp := env.now,
           status := "corrupted",
           previousChecksumId := some p.id }] ∧
      (process_file env (fp, dev) st).currentScan.filesCorrupted
        = st.currentScan.filesCorrupted + 1 ∧
      (process_file env (fp, dev) st).currentScan.filesUnchanged
        = st.currentScan.filesUnchanged ∧
      (process_file env (fp, dev) st).currentScan.filesModified
        = st.currentScan.filesModified ∧
      (process_file env (fp, dev) st).currentScan.filesNew
        = st.currentScan.filesNew) := by
  have hred : process_file env (fp, dev) st
      = finishFile env
          { st with
            db := st.db.updateFile (updatedRow f0 md env.now),
            totalSize := st.totalSize + md.size }
          fp f0.id "unchanged" (some p) md.mtime := by
    unfold process_file
    rw [hmd]
    simp only [hfile, Bool.true_eq_false, if_false, ite_false]
    rw [hrow]
    have hl : latestChecksumFor
        ({ st with
           db := st.db.updateFile (updatedRow f0 md env.now),
           totalSize := st.totalSize + md.size } : ScannerState).db
        (updatedRow f0 md env.now).id = some p := by
      show latestChecksumFor (st.db.updateFile (updatedRow f0 md env.now)) f0.id = some p
      have : (st.db.updateFile (updatedRow f0 md env.now)).checksums = st.db.checksums := rfl
      unfold latestChecksumFor
      rw [this]
      exact hprev
    simp only [hl]
    rfl
  rw [hred]
  unfold finishFile
  rw [hv]
  simp only [hne, if_false, ite_false]
  unfold classifyAndCount
  refine ⟨?_, ?_, ?_⟩
  · intro heq
    simp only [heq, ne_eq, not_true_eq_false, if_false, ite_false, if_pos rfl]
    simp [DB.addChecksum, DB.updateFile]
  · intro hneq hmt
    simp only [if_pos rfl, ne_eq, hneq, not_false_eq_true, if_pos, hmt, ite_true]
    simp [DB.addChecksum, DB.updateFile]
  · intro hneq hmt
    simp only [if_pos rfl, ne_eq, hneq, not_false_eq_true, if_pos, hmt,
      not_true_eq_false, if_false, ite_false, ite_true]
    simp [DB.addChecksum, DB.updateFile]

/-- Concrete hash function for the witnesses below. -/
def wHash : List Nat → Nat := fun l => l.foldl (fun a b => a * 256 + b) 1

/-- Concrete stat data of the witness file. -/
def wMd : DiskFile := ⟨true, 10, 100, some [171]⟩

/-- Concrete scan environment of the witnesses. -/
def wEnv : ScanEnv := ⟨wHash, 4, [("/d/a.txt", wMd)], 1000⟩

/-- Concrete in-flight scan row of the witnesses. -/
def wScan : ScanRow := ⟨1, "/d", "running", "sha256", 0, 0, 0, 0, 0, 0, 0, none⟩

/-- Concrete prior checksum of the witness file (timestamp equal to the
file's mtime, digest differing from the current contents). -/
def wPrev : ChecksumRow := ⟨5, 3, 0, "ff", "sha256", 100, "unchanged", none⟩

/-- Concrete `File` row of the witness file. -/
def wRow : FileRow := ⟨3, "/d/a.txt", "a.txt", "/d", 1, 10, 100, "text", 50, 50, false⟩

/-- Concrete scanner state of the C1 witness. -/
def wSt : ScannerState := ⟨⟨[wRow], [wPrev], [], 4, 6⟩, wScan, 0, 0⟩

/-- Witness for C1: digests differ and the mtime equals the prior
observation's timestamp, so the corrupted counter is bumped. -/
theorem process_file_change_classification_witness :
    lookupFS wEnv.fs "/d/a.txt" = some wMd ∧
    wMd.isFile = true ∧
    wSt.db.getFile (split_path_components "/d/a.txt").2.2 1 = some wRow ∧
    latestChecksumFor wSt.db wRow.id = some wPrev ∧
    calculate_file_checksum wEnv.hash wEnv.blockSize wEnv.fs "/d/a.txt" = some "1ab" ∧
    (process_file wEnv ("/d/a.txt", 1) wSt).currentScan.filesCorrupted
      = wSt.currentScan.filesCorrupted + 1 :=
  ⟨by decide, by decide, by decide, by decide, by decide,
   ((process_file_change_classification wEnv 1 "/d/a.txt" wSt wMd wRow wPrev "1ab"
      (by decide) (by decide) (by decide) (by decide) (by decide)
      (by decide)).2.2 (by decide) (by decide)).2.1⟩

/-- C9: when checksum computation fails for a file with an existing `File`
row, the already-performed effects are kept — the row's size, mtime and
last-seen are updated and the deleted flag cleared, and the file's size has
been added to the scan's byte total — while only the `Checksum` row is
omitted and a `checksum_error` `ScanError` is recorded; the scan counters
are untouched. -/
theorem process_file_checksum_failure_partial_effects (env : ScanEnv)
    (dev : Nat) (fp : String) (st : ScannerState) (md : DiskFile) (f0 : FileRow)
    (hmd : lookupFS env.fs fp = some md)
    (hfile : md.isFile = true)
    (hrow : st.db.getFile (split_path_components fp).2.2 dev = some f0)
    (hcs : calculate_file_checksum env.hash env.blockSize env.fs fp = none) :
    (process_file env (fp, dev) st).db.files = st.db.files.map
      (fun g => if g.id = f0.id then updatedRow f0 md env.now else g) ∧
    (updatedRow f0 md env.now).size = md.size ∧
    (updatedRow f0 md env.now).lastModified = md.mtime ∧
    (updatedRow f0 md env.now).lastSeen = env.now ∧
    (updatedRow f0 md env.now).isDeleted = false ∧
    (process_file env (fp, dev) st).totalSize = st.totalSize + md.size ∧
    (process_file env (fp, dev) st).db.checksums = st.db.checksums ∧
    (process_file env (fp, dev) st).db.scanErrors = st.db.scanErrors ++
      [⟨st.currentScan.id, fp, "checksum_error", "Failed to calculate checksum"⟩] ∧
    (process_file env (fp, dev) st).currentScan = st.currentScan := by
  have hred : process_file env (fp, dev) st
      = finishFile env
          { st with
            db := st.db.updateFile (updatedRow f0 md env.now),
            totalSize := st.totalSize + md.size }
          fp f0.id "unchanged"
          (latestChecksumFor (st.db.updateFile (updatedRow f0 md env.now)) f0.id)
          md.mtime := by
    unfold process_file
    rw [hmd]
    simp only [hfile, Bool.true_eq_false, if_false, ite_false]
    rw [hrow]
    rfl
  rw [hred]
  unfold finishFile
  rw [hcs]
  refine ⟨?_, rfl, rfl, rfl, rfl, rfl, rfl, rfl, rfl⟩
  simp only [DB.addScanError, DB.updateFile]
  apply List.map_congr_left
  intro a _
  rfl

/-- Witness environment for C9: the file stats fine but cannot be read. -/
def wEnvFail : ScanEnv := ⟨wHash, 4, [("/d/a.txt", ⟨true, 10, 100, none⟩)], 1000⟩

/-- Witness for C9 at a concrete unreadable file. -/
theorem process_file_checksum_failure_partial_effects_witness :
    lookupFS wEnvFail.fs "/d/a.txt" = some ⟨true, 10, 100, none⟩ ∧
    calculate_file_checksum wEnvFail.hash wEnvFail.blockSize wEnvFail.fs "/d/a.txt"
      = none ∧
    (process_file wEnvFail ("/d/a.txt", 1) wSt).totalSize = wSt.totalSize + 10 ∧
    (process_file wEnvFail ("/d/a.txt", 1) wSt).db.checksums = wSt.db.checksums :=
  ⟨by decide, by decide,
   (process_file_checksum_failure_partial_effects wEnvFail 1 "/d/a.txt" wSt
      ⟨true, 10, 100, none⟩ wRow (by decide) (by decide) (by decide)
      (by decide)).2.2.2.2.2.1,
   (process_file_checksum_failure_partial_effects wEnvFail 1 "/d/a.txt" wSt
      ⟨true, 10, 100, none⟩ wRow (by decide) (by decide) (by decide)
      (by decide)).2.2.2.2.2.2.1⟩

/-- C10: for a file whose `File` row exists but which has no prior
`Checksum`, a successful scan writes a `Checksum` row with status
`unchanged` and no previous-checksum back-reference, and bumps none of the
new/unchanged/modified/corrupted counters. -/
theorem process_file_no_prior_checksum_unchanged (env : ScanEnv) (dev : Nat)
    (fp : String) (st : ScannerState) (md : DiskFile) (f0 : FileRow) (v : String)
    (hmd : lookupFS env.fs fp = some md)
    (hfile : md.isFile = true)
    (hrow : st.db.getFile (split_path_components fp).2.2 dev = some f0)
    (hprev : latestChecksumFor st.db f0.id = none)
    (hv : calculate_file_checksum env.hash env.blockSize env.fs fp = some v)
    (hne : v ≠ "") :
    (process_file env (fp, dev) st).db.checksums = st.db.checksums ++
      [{ id := st.db.nextChecksumId,
         fileId := f0.id,
         scanId := st.currentScan.id,
         checksumValue := v,
         checksumMethod := st.currentScan.checksumMethod,
         timestamp := env.now,
         status := "unchanged",
         previousChecksumId := none }] ∧
    (process_file env (fp, dev) st).currentScan.filesNew
      = st.currentScan.filesNew ∧
    (process_file env (fp, dev) st).currentScan.filesUnchanged
      = st.currentScan.filesUnchanged ∧
    (process_file env (fp, dev) st).currentScan.filesModified
      = st.currentScan.filesModified ∧
    (process_file env (fp, dev) st).currentScan.filesCorrupted
      = st.currentScan.filesCorrupted := by
  have hred : process_file env (fp, dev) st
      = finishFile env
          { st with
            db := st.db.updateFile (updatedRow f0 md env.now),
            totalSize := st.totalSize + md.size }
          fp f0.id "unchanged" none md.mtime := by
    unfold process_file
    rw [hmd]
    simp only [hfile, Bool.true_eq_false, if_false, ite_false]
    rw [hrow]
    have hl : latestChecksumFor
        ({ st with
           db := st.db.updateFile (updatedRow f0 md env.now),
           totalSize := st.totalSize + md.size } : ScannerState).db
        (updatedRow f0 md env.now).id = none := by
      show latestChecksumFor (st.db.updateFile (updatedRow f0 md env.now)) f0.id = none
      have : (st.db.updateFile (updatedRow f0 md env.now)).checksums = st.db.checksums := rfl
      unfold latestChecksumFor
      rw [this]
      exact hprev
    simp only [hl]
    rfl
  rw [hred]
  unfold finishFile
  rw [hv]
  simp only [hne, if_false, ite_false]
  unfold classifyAndCount
  simp only [String.reduceEq, if_false, ite_false]
  simp [DB.addChecksum, DB.updateFile]

/-- Concrete scanner state of the C10 witness: the `File` row exists but no
checksum history does. -/
def wStNoPrev : ScannerState := ⟨⟨[wRow], [], [], 4, 6⟩, wScan, 0, 0⟩

/-- Witness for C10 at a concrete metadata-only file. -/
theorem process_file_no_prior_checksum_unchanged_witness :
    latestChecksumFor wStNoPrev.db wRow.id = none ∧
    (process_file wEnv ("/d/a.txt", 1) wStNoPrev).currentScan.filesNew
      = wStNoPrev.currentScan.filesNew ∧
    (process_file wEnv ("/d/a.txt", 1) wStNoPrev).currentScan.filesUnchanged
      = wStNoPrev.currentScan.filesUnchanged :=
  ⟨by decide,
   (process_file_no_prior_checksum_unchanged wEnv 1 "/d/a.txt" wStNoPrev wMd wRow
      "1ab" (by decide) (by decide) (by decide) (by decide) (by decide)
      (by decide)).2.1,
   (process_file_no_prior_checksum_unchanged wEnv 1 "/d/a.txt" wStNoPrev wMd wRow
      "1ab" (by decide) (by decide) (by decide) (by decide) (by decide)
      (by decide)).2.2.1⟩

/-- Trivial glob matcher used by the concrete scan runs (no pattern matches). -/
def wPm : String → String → Bool := fun _ _ => false

/-- Environment in which the witness file has vanished from disk. -/
def wEnvGone : ScanEnv := ⟨wHash, 4, [], 1000⟩

/-- C2: evaluation of the v1.1.0 `scan()` at a state where a tracked file has
been deleted from disk.  The reconciliation pass marks the `File` row deleted
and sets `files_missing` to 1, but no `Checksum` row with status `missing`
is written for the scan, because `scan()` never calls
`update_missing_files_status` — the uninvoked helper itself would have
written exactly one such row. -/
theorem scan_reconciliation_missing_checksum_gap :
    (run_scan wEnvGone wPm (some []) "/d" 1 none none wSt).state.db.files
      = [{ wRow with isDeleted := true }] ∧
    (run_scan wEnvGone wPm (some []) "/d" 1 none none wSt).state.currentScan.filesMissing
      = 1 ∧
    (run_scan wEnvGone wPm (some []) "/d" 1 none none wSt).state.db.checksums
      = wSt.db.checksums ∧
    ((run_scan wEnvGone wPm (some []) "/d" 1 none none wSt).state.db.checksums.filter
        (fun c => c.status == "missing")) = [] ∧
    ((update_missing_files_status 1000
        (run_scan wEnvGone wPm (some []) "/d" 1 none none wSt).state.currentScan
        (find_missing_files [] "/d" 1 wSt.db).2
        (run_scan wEnvGone wPm (some []) "/d" 1 none none wSt).state.db).1.checksums.filter
        (fun c => c.status == "missing")).length = 1 := by
  decide

/-- Empty-database scanner state for the C5 evaluation. -/
def wStEmpty : ScannerState := ⟨⟨[], [], [], 1, 1⟩, wScan, 0, 0⟩

/-- C5: the counting pass is by construction the length of the same walk with
the same filters (first conjunct, which holds for every tree and filter
pair), and on a concrete static one-file tree the scan processes exactly
`total_files` files — but the persisted scan row's `files_scanned` is 0, not
`total_files`, because the v1.1.0 `scan()` never assigns `files_scanned`
(the superseded v1.0 entry point did). -/
theorem scan_total_files_vs_files_scanned :
    (∀ (pm : String → String → Bool) (top : String)
       (e1 e2 : Option (List String)) (t : Option (List FsEntry)),
       count_files pm top e1 e2 t = (walk_directory pm top e1 e2 none t).length) ∧
    (run_scan wEnv wPm (some [FsEntry.file "a.txt"]) "/d" 1 none none wStEmpty).totalFiles
      = 1 ∧
    (run_scan wEnv wPm (some [FsEntry.file "a.txt"]) "/d" 1 none none
        wStEmpty).state.filesProcessed = 1 ∧
    (run_scan wEnv wPm (some [FsEntry.file "a.txt"]) "/d" 1 none none
        wStEmpty).state.currentScan.filesScanned = 0 :=
  ⟨fun _ _ _ _ _ => rfl, by decide, by decide, by decide⟩

/-- C8: an exception while processing a single file is caught at the worker
level and recorded as a `ScanError` of type `processing_error`; the worker
then continues with the remaining queued items exactly as if it had started
from the error-recorded state, and finalization after the pool drains still
reaches terminal status `completed`. -/
theorem worker_error_isolation (env : ScanEnv) (st : ScannerState) (fp : String)
    (dev : Nat) (msg : String) (rest : List QueueItem)
    (fs : List (String × DiskFile)) (top : String) (dev2 : Nat) :
    worker_run env st (QueueItem.item fp dev (some msg) :: rest)
      = worker_run env
          { st with
            db := st.db.addScanError
              { scanId := st.currentScan.id,
                filePath := fp,
                errorType := "processing_error",
                errorMessage := msg } }
          rest ∧
    (finalizeScan fs top dev2 st).currentScan.status = "completed" :=
  ⟨rfl, rfl⟩

/-! ### Order-invariance of the scan aggregates (C4)

A multi-worker run with atomic per-file steps processes the enqueued paths in
some order, i.e. some permutation of the walked list.  The aggregates are
shown to be invariant under that order. -/

/-- One worker iteration on a dequeued fault-free item: `_process_file`
followed by the `files_processed` increment.  The whole iteration, counter
updates included, is one atomic step here: this is the serialized-update
discipline under which the order-invariance theorem below holds.  In the
source only `total_size` is updated under `size_lock`; `files_processed` and
the classification counters are unsynchronized `+=` on shared objects, a
refinement of which (load and store as separate thread steps) is modelled
further below. -/
def processStep (env : ScanEnv) (st : ScannerState) (it : String × Nat) :
    ScannerState :=
  let st1 := process_file env it st
  { st1 with filesProcessed := st1.filesProcessed + 1 }

/-- Processing all enqueued items in the given order, each item as one
atomic serialized step. -/
def processAll (env : ScanEnv) (st : ScannerState) (l : List (String × Nat)) :
    ScannerState :=
  l.foldl (processStep env) st

/-- The observed scan aggregates: files processed, the four classification
counters, the byte total, and the number of `File` rows satisfying a row
predicate (instantiated with the reconciliation pass's missing-row test). -/
def obsOf (P : FileRow → Bool) (st : ScannerState) : ℤ × ℤ × ℤ × ℤ × ℤ × ℤ × ℤ :=
  ((st.filesProcessed : ℤ), (st.currentScan.filesUnchanged : ℤ),
   (st.currentScan.filesModified : ℤ), (st.currentScan.filesCorrupted : ℤ),
   (st.currentScan.filesNew : ℤ), (st.totalSize : ℤ),
   ((st.db.files.countP P : Nat) : ℤ))

/-- The contribution of one path to the scan aggregates, read off the
database state in which the path is processed; mirrors `_process_file`. -/
def fileDelta (env : ScanEnv) (P : FileRow → Bool) (dev : Nat) (fp : String)
    (db : DB) : ℤ × ℤ × ℤ × ℤ × ℤ × ℤ × ℤ :=
  match lookupFS env.fs fp with
  | none => (1, 0, 0, 0, 0, 0, 0)
  | some md =>
    if md.isFile = false then (1, 0, 0, 0, 0, 0, 0)
    else
      match db.getFile (split_path_components fp).2.2 dev with
      | none =>
        let newRow := { mkNewRow fp dev md env.now with id := db.nextFileId }
        let pd : ℤ := if P newRow then 1 else 0
        match calculate_file_checksum env.hash env.blockSize env.fs fp with
        | none => (1, 0, 0, 0, 0, (md.size : ℤ), pd)
        | some v =>
          if v = "" then (1, 0, 0, 0, 0, (md.size : ℤ), pd)
          else (1, 0, 0, 0, 1, (md.size : ℤ), pd)
      | some f0 =>
        let f1 := updatedRow f0 md env.now
        let pd : ℤ := (if P f1 then 1 else 0) - (if P f0 then 1 else 0)
        match calculate_file_checksum env.hash env.blockSize env.fs fp with
        | none => (1, 0, 0, 0, 0, (md.size : ℤ), pd)
        | some v =>
          if v = "" then (1, 0, 0, 0, 0, (md.size : ℤ), pd)
          else
            match latestChecksumFor db f0.id with
            | some p =>
              if v ≠ p.checksumValue then
                if md.mtime ≠ p.timestamp then (1, 0, 1, 0, 0, (md.size : ℤ), pd)
                else (1, 0, 0, 1, 0, (md.size : ℤ), pd)
              else (1, 1, 0, 0, 0, (md.size : ℤ), pd)
            | none => (1, 0, 0, 0, 0, (md.size : ℤ), pd)

/-- Wellformedness of the files table: distinct row ids, ids below the
allocation counter, and at most one row per (path, device). -/
def DB.wf (db : DB) : Prop :=
  (db.files.map FileRow.id).Nodup ∧
  (∀ f ∈ db.files, f.id < db.nextFileId) ∧
  db.files.Pairwise
    (fun f g => ¬(f.path = g.path ∧ f.storageDeviceId = g.storageDeviceId))

instance (db : DB) : Decidable db.wf := by
  unfold DB.wf
  infer_instance

theorem find?_update_ne (l : List FileRow) (a : Nat) (f1 : FileRow)
    (q : FileRow → Bool)
    (huniq : ∀ g ∈ l, g.id = a → q g = false)
    (h1 : q f1 = false) :
    (l.map fun g => if g.id = a then f1 else g).find? q = l.find? q := by
  induction l with
  | nil => rfl
  | cons g rest ih =>
    by_cases hg : g.id = a
    · have hq0 : q g = false := huniq g (List.mem_cons_self g rest) hg
      simp only [List.map_cons, if_pos hg]
      rw [List.find?_cons_of_neg _ (by simp [h1]),
        List.find?_cons_of_neg _ (by simp [hq0])]
      exact ih (fun x hx h => huniq x (List.mem_cons_of_mem _ hx) h)
    · simp only [List.map_cons, if_neg hg]
      cases hq : q g
      · rw [List.find?_cons_of_neg _ (by simp [hq]),
          List.find?_cons_of_neg _ (by simp [hq])]
        exact ih (fun x hx h => huniq x (List.mem_cons_of_mem _ hx) h)
      · rw [List.find?_cons_of_pos _ hq, List.find?_cons_of_pos _ hq]

theorem countP_update (l : List FileRow) (f0 f1 : FileRow)
    (P : FileRow → Bool)
    (hnd : (l.map FileRow.id).Nodup) (hmem : f0 ∈ l) :
    ((l.map fun g => if g.id = f0.id then f1 else g).countP P : ℤ)
      = (l.countP P : ℤ) + (if P f1 then 1 else 0) - (if P f0 then 1 else 0) := by
  induction l with
  | nil => exact absurd hmem (List.not_mem_nil f0)
  | cons g rest ih =>
    simp only [List.map_cons, List.nodup_cons, List.mem_map] at hnd
    rcases hnd with ⟨hgid, hndr⟩
    rcases List.mem_cons.mp hmem with heq | hmemr
    · subst heq
      simp only [List.map_cons, if_pos rfl, List.countP_cons]
      have hrest : (rest.map fun x => if x.id = f0.id then f1 else x) = rest := by
        conv_rhs => rw [show rest = rest.map id from (List.map_id rest).symm]
        apply List.map_congr_left
        intro a ha
        simp only [id]
        rw [if_neg]
        intro haid
        exact hgid ⟨a, ha, haid⟩
      rw [hrest]
      push_cast
      split <;> split <;> omega
    · have hgne : g.id ≠ f0.id := by
        intro h
        exact hgid ⟨f0, hmemr, h.symm⟩
      simp only [List.map_cons, if_neg hgne, List.countP_cons]
      have := ih hndr hmemr
      push_cast at this ⊢
      split <;> omega

theorem latest_after_add (db : DB) (c : ChecksumRow) (fid : Nat)
    (h : c.fileId ≠ fid) :
    latestChecksumFor (db.addChecksum c).1 fid = latestChecksumFor db fid := by
  unfold latestChecksumFor DB.addChecksum
  simp only [List.filter_append]
  have hnil : List.filter (fun x => x.fileId == fid)
      [{ c with id := db.nextChecksumId }] = [] := by
    rw [List.filter_cons]
    simp [h]
  rw [hnil, List.append_nil]

theorem countP_snoc (l : List FileRow) (f : FileRow) (P : FileRow → Bool) :
    (((l ++ [f]).countP P : Nat) : ℤ)
      = ((l.countP P : Nat) : ℤ) + (if P f then 1 else 0) := by
  rw [List.countP_append, List.countP_cons, List.countP_nil]
  push_cast
  split <;> omega

/-- The aggregates after one worker iteration are the aggregates before plus
the path's contribution read off the database it was processed against. -/
theorem obs_processStep (env : ScanEnv) (P : FileRow → Bool) (dev : Nat)
    (fp : String) (st : ScannerState) (hwf : st.db.wf) :
    obsOf P (processStep env st (fp, dev))
      = obsOf P st + fileDelta env P dev fp st.db := by
  unfold processStep process_file fileDelta
  split
  · rename_i heq
    simp only [heq, obsOf, Prod.mk_add_mk, Prod.mk.injEq]
    push_cast
    omega
  · rename_i md heq
    simp only [heq]
    split
    · rename_i hisf
      simp only [obsOf, Prod.mk_add_mk, Prod.mk.injEq]
      push_cast
      omega
    · rename_i hisf
      split
      · rename_i hrow
        unfold finishFile
        split
        · rename_i hcs
          simp only [obsOf, DB.addScanError, DB.addFile, Prod.mk_add_mk,
            Prod.mk.injEq, List.countP_append, List.countP_cons, List.countP_nil]
          push_cast
          omega
        · rename_i v hcs
          split
          · rename_i hv
            simp only [obsOf, DB.addScanError, DB.addFile, Prod.mk_add_mk,
              Prod.mk.injEq, List.countP_append, List.countP_cons, List.countP_nil]
            push_cast
            omega
          · rename_i hv
            unfold classifyAndCount
            simp only [String.reduceEq, if_false, ite_false, if_pos, ite_true,
              obsOf, DB.addChecksum, DB.addFile, Prod.mk_add_mk, Prod.mk.injEq,
              List.countP_append, List.countP_cons, List.countP_nil]
            push_cast
            omega
      · rename_i f0 hrow
        have hmem : f0 ∈ st.db.files := by
          unfold DB.getFile at hrow
          exact List.mem_of_find?_eq_some hrow
        have hcnt := countP_update st.db.files f0 (updatedRow f0 md env.now) P
          hwf.1 hmem
        push_cast at hcnt
        rw [show latestChecksumFor (st.db.updateFile (updatedRow f0 md env.now))
             (updatedRow f0 md env.now).id = latestChecksumFor st.db f0.id from rfl]
        unfold finishFile
        split
        · rename_i hcs
          simp only [obsOf, DB.addScanError, DB.updateFile, Prod.mk_add_mk,
            Prod.mk.injEq, show (updatedRow f0 md env.now).id = f0.id from rfl]
          push_cast
          omega
        · rename_i v hcs
          split
          · rename_i hv
            simp only [obsOf, DB.addScanError, DB.updateFile, Prod.mk_add_mk,
              Prod.mk.injEq, show (updatedRow f0 md env.now).id = f0.id from rfl]
            push_cast
            omega
          · rename_i hv
            unfold classifyAndCount
            split
            · rename_i p hprev
              simp only [String.reduceEq, if_pos, ite_true]
              split
              · rename_i hvp
                split
                · rename_i hmt
                  simp only [obsOf, DB.addChecksum, DB.updateFile, Prod.mk_add_mk,
                    Prod.mk.injEq, show (updatedRow f0 md env.now).id = f0.id from rfl]
                  push_cast
                  omega
                · rename_i hmt
                  simp only [obsOf, DB.addChecksum, DB.updateFile, Prod.mk_add_mk,
                    Prod.mk.injEq, show (updatedRow f0 md env.now).id = f0.id from rfl]
                  push_cast
                  omega
              · rename_i hvp
                simp only [obsOf, DB.addChecksum, DB.updateFile, Prod.mk_add_mk,
                  Prod.mk.injEq, show (updatedRow f0 md env.now).id = f0.id from rfl]
                push_cast
                omega
            · rename_i hprev
              simp only [String.reduceEq, if_false, ite_false, obsOf, DB.addChecksum,
                DB.updateFile, Prod.mk_add_mk, Prod.mk.injEq,
                show (updatedRow f0 md env.now).id = f0.id from rfl]
              push_cast
              omega

theorem split_path_components_path (fp : String) :
    (split_path_components fp).2.2 = fp := rfl

theorem getFile_addFile_ne (db : DB) (f : FileRow) (q : String) (dev : Nat)
    (h : (f.path == q) = false) :
    (db.addFile f).1.getFile q dev = db.getFile q dev := by
  unfold DB.getFile DB.addFile
  rw [List.find?_append]
  have hnone : List.find? (fun g => g.path == q && g.storageDeviceId == dev)
      [{ f with id := db.nextFileId }] = none := by
    rw [List.find?_cons_of_neg _ (by simp [h])]
    rfl
  rw [hnone, Option.or_none]

theorem getFile_updateFile_ne (db : DB) (a : Nat) (f1 : FileRow)
    (q : String) (dev : Nat)
    (huniq : ∀ g ∈ db.files, g.id = a →
      ((g.path == q && g.storageDeviceId == dev) : Bool) = false)
    (h1 : ((f1.path == q && f1.storageDeviceId == dev) : Bool) = false) :
    ({ db with
       files := db.files.map fun g => if g.id = a then f1 else g } : DB).getFile q dev
      = db.getFile q dev := by
  unfold DB.getFile
  exact find?_update_ne db.files a f1 _ huniq h1

/-- Wellformedness only reads the files table and the allocation counter. -/
theorem wf_of_eq (db1 db2 : DB) (hf : db2.files = db1.files)
    (hn : db2.nextFileId = db1.nextFileId) (h : db1.wf) : db2.wf := by
  unfold DB.wf at *
  rw [hf, hn]
  exact h

theorem wf_addFile (db : DB) (f : FileRow) (hwf : db.wf)
    (hno : db.getFile f.path f.storageDeviceId = none) :
    (db.addFile f).1.wf := by
  rcases hwf with ⟨hnd, hlt, hpw⟩
  have hmatch : ∀ g ∈ db.files,
      ¬(g.path = f.path ∧ g.storageDeviceId = f.storageDeviceId) := by
    intro g hg hc
    exact (List.find?_eq_none.mp hno g hg) (by simp [hc.1, hc.2])
  refine ⟨?_, ?_, ?_⟩
  · show (List.map FileRow.id (db.files ++ [{ f with id := db.nextFileId }])).Nodup
    rw [List.map_append, List.nodup_append]
    refine ⟨hnd, List.nodup_singleton _, ?_⟩
    intro x hx hx2
    rcases List.mem_map.mp hx with ⟨g, hg, rfl⟩
    have hb := hlt g hg
    have hge : g.id = db.nextFileId := by simpa using hx2
    omega
  · intro g hg
    show g.id < db.nextFileId + 1
    rcases List.mem_append.mp hg with hg | hg
    · have := hlt g hg
      omega
    · rcases List.mem_singleton.mp hg with rfl
      show db.nextFileId < db.nextFileId + 1
      omega
  · show List.Pairwise _ (db.files ++ [{ f with id := db.nextFileId }])
    rw [List.pairwise_append]
    refine ⟨hpw, List.pairwise_singleton _ _, ?_⟩
    intro g hg b hb
    rcases List.mem_singleton.mp hb with rfl
    exact hmatch g hg

theorem wf_updateFile (db : DB) (f0 f1 : FileRow) (hwf : db.wf)
    (hmem : f0 ∈ db.files) (hid : f1.id = f0.id) (hpath : f1.path = f0.path)
    (hdev : f1.storageDeviceId = f0.storageDeviceId) :
    (db.updateFile f1).wf := by
  rcases hwf with ⟨hnd, hlt, hpw⟩
  have huniq : ∀ g ∈ db.files, g.id = f0.id → g = f0 := by
    intro g hg h
    exact List.inj_on_of_nodup_map hnd hg hmem h
  have hpt : ∀ g ∈ db.files,
      ((if g.id = f1.id then f1 else g).id = g.id ∧
       (if g.id = f1.id then f1 else g).path = g.path ∧
       (if g.id = f1.id then f1 else g).storageDeviceId = g.storageDeviceId) := by
    intro g hg
    by_cases h : g.id = f1.id
    · have hg0 : g = f0 := huniq g hg (h.trans hid)
      subst hg0
      rw [if_pos h]
      exact ⟨hid, hpath, hdev⟩
    · rw [if_neg h]
      exact ⟨rfl, rfl, rfl⟩
  refine ⟨?_, ?_, ?_⟩
  · show (List.map FileRow.id
      (db.files.map fun g => if g.id = f1.id then f1 else g)).Nodup
    rw [List.map_map]
    have heq : List.map (FileRow.id ∘ fun g => if g.id = f1.id then f1 else g)
        db.files = List.map FileRow.id db.files := by
      apply List.map_congr_left
      intro g hg
      exact (hpt g hg).1
    rw [heq]
    exact hnd
  · intro g' hg'
    rcases List.mem_map.mp hg' with ⟨g, hg, rfl⟩
    show (if g.id = f1.id then f1 else g).id < db.nextFileId
    rw [(hpt g hg).1]
    exact hlt g hg
  · show List.Pairwise _ (db.files.map fun g => if g.id = f1.id then f1 else g)
    rw [List.pairwise_map]
    apply List.Pairwise.imp_of_mem _ hpw
    intro a b ha hb hr
    rw [(hpt a ha).2.1, (hpt a ha).2.2, (hpt b hb).2.1, (hpt b hb).2.2]
    exact hr

/-- Wellformedness is preserved by one worker iteration. -/
theorem wf_processStep (env : ScanEnv) (dev : Nat) (fp : String)
    (st : ScannerState) (hwf : st.db.wf) :
    (processStep env st (fp, dev)).db.wf := by
  unfold processStep process_file
  split
  · exact hwf
  · rename_i md heq
    split
    · exact hwf
    · rename_i hisf
      dsimp only
      split
      · rename_i hrow
        have hwf1 : (st.db.addFile (mkNewRow fp dev md env.now)).1.wf :=
          wf_addFile st.db _ hwf hrow
        unfold finishFile
        split
        · exact wf_of_eq _ _ rfl rfl hwf1
        · split
          · exact wf_of_eq _ _ rfl rfl hwf1
          · exact wf_of_eq _ _ rfl rfl hwf1
      · rename_i f0 hrow
        have hmem : f0 ∈ st.db.files := by
          unfold DB.getFile at hrow
          exact List.mem_of_find?_eq_some hrow
        have hwf1 : (st.db.updateFile (updatedRow f0 md env.now)).wf :=
          wf_updateFile st.db f0 _ hwf hmem rfl rfl rfl
        unfold finishFile
        split
        · exact wf_of_eq _ _ rfl rfl hwf1
        · split
          · exact wf_of_eq _ _ rfl rfl hwf1
          · exact wf_of_eq _ _ rfl rfl hwf1

/-- The contribution of a path depends on the database only through the
path's own `File` row and that row's latest checksum. -/
theorem fileDelta_congr (env : ScanEnv) (P : FileRow → Bool)
    (hP : ∀ f i, P { f with id := i } = P f)
    (dev : Nat) (q : String) (db1 db2 : DB)
    (hget : db2.getFile (split_path_components q).2.2 dev
          = db1.getFile (split_path_components q).2.2 dev)
    (hlatest : ∀ f0 : FileRow,
        db1.getFile (split_path_components q).2.2 dev = some f0 →
        latestChecksumFor db2 f0.id = latestChecksumFor db1 f0.id) :
    fileDelta env P dev q db2 = fileDelta env P dev q db1 := by
  unfold fileDelta
  split
  · rfl
  · rename_i md heq
    by_cases hisf : md.isFile = false
    · rw [if_pos hisf, if_pos hisf]
    · rw [if_neg hisf, if_neg hisf, hget]
      split
      · rename_i hrow
        dsimp only
        rw [hP (mkNewRow q dev md env.now) db2.nextFileId,
          hP (mkNewRow q dev md env.now) db1.nextFileId]
      · rename_i f0 hrow
        dsimp only
        rw [hlatest f0 hrow]

theorem getFile_some_fields (db : DB) (key : String) (dev : Nat) (f0 : FileRow)
    (h : db.getFile key dev = some f0) :
    f0.path = key ∧ f0.storageDeviceId = dev := by
  unfold DB.getFile at h
  have hpred := List.find?_some h
  simp only [Bool.and_eq_true, beq_iff_eq] at hpred
  exact hpred

/-- Processing one path leaves the contribution of every other path
unchanged: the per-path classification reads only state the other paths'
processing does not touch. -/
theorem fileDelta_frame (env : ScanEnv) (P : FileRow → Bool)
    (hP : ∀ f i, P { f with id := i } = P f) (dev : Nat) (fp q : String)
    (hne : q ≠ fp) (st : ScannerState) (hwf : st.db.wf) :
    fileDelta env P dev q (process_file env (fp, dev) st).db
      = fileDelta env P dev q st.db := by
  have hbeqq : (fp == q) = false := beq_eq_false_iff_ne.mpr (fun h => hne h.symm)
  unfold process_file
  split
  · rfl
  · rename_i md heq
    split
    · rfl
    · rename_i hisf
      dsimp only
      split
      · rename_i hrow
        -- fp is a new file: its row is appended and its checksum references
        -- the freshly allocated id
        have hgetA : (st.db.addFile (mkNewRow fp dev md env.now)).1.getFile
            (split_path_components q).2.2 dev
              = st.db.getFile (split_path_components q).2.2 dev :=
          getFile_addFile_ne st.db _ _ dev hbeqq
        unfold finishFile
        split
        · exact fileDelta_congr env P hP dev q st.db _ hgetA (fun f0 _ => rfl)
        · rename_i v hcs
          split
          · exact fileDelta_congr env P hP dev q st.db _ hgetA (fun f0 _ => rfl)
          · dsimp only
            refine fileDelta_congr env P hP dev q st.db _ hgetA ?_
            intro f0 hf0
            have hmemq : f0 ∈ st.db.files := by
              unfold DB.getFile at hf0
              exact List.mem_of_find?_eq_some hf0
            have hlt : f0.id < st.db.nextFileId := hwf.2.1 f0 hmemq
            refine Eq.trans (latest_after_add
              (st.db.addFile (mkNewRow fp dev md env.now)).1 _ f0.id ?_) rfl
            show st.db.nextFileId ≠ f0.id
            omega
      · rename_i g0 hrow
        -- fp has an existing row g0: only g0's row is rewritten and only
        -- checksums for g0's id are appended
        rcases getFile_some_fields st.db _ dev g0 hrow with ⟨hg0p, hg0d⟩
        have huniq : ∀ g ∈ st.db.files, g.id = g0.id → g = g0 := by
          intro g hg h
          have hmem : g0 ∈ st.db.files := by
            unfold DB.getFile at hrow
            exact List.mem_of_find?_eq_some hrow
          exact List.inj_on_of_nodup_map hwf.1 hg hmem h
        have hgetU : (st.db.updateFile (updatedRow g0 md env.now)).getFile
            (split_path_components q).2.2 dev
              = st.db.getFile (split_path_components q).2.2 dev := by
          apply getFile_updateFile_ne st.db (updatedRow g0 md env.now).id
            (updatedRow g0 md env.now)
          · intro g hg h
            have hgg : g = g0 := huniq g hg h
            subst hgg
            simp only [Bool.and_eq_false_iff]
            left
            rw [hg0p]
            exact hbeqq
          · simp only [Bool.and_eq_false_iff]
            left
            show (g0.path == (split_path_components q).2.2) = false
            rw [hg0p]
            exact hbeqq
        have hlatestU : ∀ f0 : FileRow,
            st.db.getFile (split_path_components q).2.2 dev = some f0 →
            f0.id ≠ g0.id := by
          intro f0 hf0 hideq
          have hmemq : f0 ∈ st.db.files := by
            unfold DB.getFile at hf0
            exact List.mem_of_find?_eq_some hf0
          have hmemg : g0 ∈ st.db.files := by
            unfold DB.getFile at hrow
            exact List.mem_of_find?_eq_some hrow
          have hfg : f0 = g0 := List.inj_on_of_nodup_map hwf.1 hmemq hmemg hideq
          rcases getFile_some_fields st.db _ dev f0 hf0 with ⟨hf0p, _⟩
          have hq : f0.path = q := hf0p
          have hfp : g0.path = fp := hg0p
          exact hne (by rw [← hq, hfg, hfp])
        unfold finishFile
        split
        · exact fileDelta_congr env P hP dev q st.db _ hgetU (fun f0 _ => rfl)
        · rename_i v hcs
          split
          · exact fileDelta_congr env P hP dev q st.db _ hgetU (fun f0 _ => rfl)
          · dsimp only
            refine fileDelta_congr env P hP dev q st.db _ hgetU ?_
            intro f0 hf0
            refine Eq.trans (latest_after_add
              (st.db.updateFile (updatedRow g0 md env.now)) _ f0.id ?_) rfl
            show (updatedRow g0 md env.now).id ≠ f0.id
            exact fun h => hlatestU f0 hf0 h.symm

/-- Folding the worker iteration over a duplicate-free path list adds, to the
starting aggregates, the contributions of the paths read off the starting
database. -/
theorem processAll_obs (env : ScanEnv) (P : FileRow → Bool)
    (hP : ∀ f i, P { f with id := i } = P f) (dev : Nat) :
    ∀ (l : List String) (st : ScannerState), st.db.wf → l.Nodup →
    obsOf P (processAll env st (l.map (fun p => (p, dev))))
      = obsOf P st + (l.map (fun p => fileDelta env P dev p st.db)).sum := by
  intro l
  induction l with
  | nil =>
    intro st hwf hnd
    simp [processAll]
  | cons p l ih =>
    intro st hwf hnd
    rcases List.nodup_cons.mp hnd with ⟨hpl, hndl⟩
    have hstep := obs_processStep env P dev p st hwf
    have hwf1 := wf_processStep env dev p st hwf
    have hframe : ∀ q ∈ l,
        fileDelta env P dev q (processStep env st (p, dev)).db
          = fileDelta env P dev q st.db := by
      intro q hq
      have hqp : q ≠ p := fun h => hpl (h ▸ hq)
      exact fileDelta_frame env P hP dev p q hqp st hwf
    calc obsOf P (processAll env st ((p :: l).map (fun r => (r, dev))))
        = obsOf P (processAll env (processStep env st (p, dev))
            (l.map (fun r => (r, dev)))) := rfl
      _ = obsOf P (processStep env st (p, dev))
            + (l.map (fun q => fileDelta env P dev q
                (processStep env st (p, dev)).db)).sum := ih _ hwf1 hndl
      _ = obsOf P st + fileDelta env P dev p st.db
            + (l.map (fun q => fileDelta env P dev q st.db)).sum := by
          rw [hstep, List.map_congr_left hframe]
      _ = obsOf P st
            + ((p :: l).map (fun q => fileDelta env P dev q st.db)).sum := by
          rw [List.map_cons, List.sum_cons, add_assoc]

/-- The scan-row fields the per-file step never writes. -/
def scanMeta (s : ScanRow) :
    Nat × String × String × String × Nat × Nat × Nat × Option String :=
  (s.id, s.topLevelPath, s.status, s.checksumMethod, s.filesScanned,
   s.filesMissing, s.totalSize, s.errorMessage)

theorem classify_scanMeta (scan : ScanRow) (s : String)
    (prev : Option ChecksumRow) (v : String) (m : Nat) :
    scanMeta (classifyAndCount scan s prev v m).2 = scanMeta scan := by
  unfold classifyAndCount
  split
  · split
    · split
      · split
        · rfl
        · rfl
      · rfl
    · split
      · rfl
      · rfl
  · split
    · rfl
    · rfl

theorem processStep_scanMeta (env : ScanEnv) (st : ScannerState)
    (it : String × Nat) :
    scanMeta (processStep env st it).currentScan = scanMeta st.currentScan := by
  unfold processStep process_file
  split
  · rfl
  · rename_i md heq
    dsimp only
    split
    · rfl
    · split
      · unfold finishFile
        split
        · rfl
        · split
          · rfl
          · exact classify_scanMeta _ _ _ _ _
      · unfold finishFile
        split
        · rfl
        · split
          · rfl
          · exact classify_scanMeta _ _ _ _ _

theorem processAll_scanMeta (env : ScanEnv) :
    ∀ (l : List (String × Nat)) (st : ScannerState),
    scanMeta (processAll env st l).currentScan = scanMeta st.currentScan := by
  intro l
  induction l with
  | nil => intro st; rfl
  | cons it l ih =>
    intro st
    calc scanMeta (processAll env (processStep env st it) l).currentScan
        = scanMeta (processStep env st it).currentScan := ih _
      _ = scanMeta st.currentScan := processStep_scanMeta env st it

/-- A run in which the worker pool processed the walked paths in the given
order — one serialized permutation of the walked list, the granularity at
which per-file steps are atomic — followed by finalization and the
reconciliation pass. -/
def scanOutcome (env : ScanEnv) (top : String) (dev : Nat)
    (order : List String) (st0 : ScannerState) : ScannerState :=
  finalizeScan env.fs top dev
    (processAll env st0 (order.map (fun p => (p, dev))))

theorem find_missing_len (fs : List (String × DiskFile)) (top : String)
    (dev : Nat) (db : DB) :
    (find_missing_files fs top dev db).2.length
      = db.files.countP (missingTarget fs top dev) := by
  unfold find_missing_files
  exact (List.countP_eq_length_filter _ _).symm

attribute [ext] ScanRow

/-- C4 amended: provided each per-file step — its counter read-modify-writes
included — executes atomically (the serialized-update discipline; the source
itself guards only `total_size` with `size_lock`), a multi-worker run over a
static tree processes the walked paths in some order — a permutation of the
walked list — and any two such orders (as arise from worker counts 1, 4 and
16) produce the same final scan row (all six counters, the byte total, the
terminal status) and the same processed-file count and in-memory byte total.
Without that proviso the equality of counters fails: see the lost-update
interleaving exhibited below. -/
theorem scan_counters_worker_order_invariant (env : ScanEnv) (top : String)
    (dev : Nat) (st0 : ScannerState) (walkPaths order1 order2 : List String)
    (h1 : order1.Perm walkPaths) (h2 : order2.Perm walkPaths)
    (hnd : walkPaths.Nodup) (hwf : st0.db.wf) :
    (scanOutcome env top dev order1 st0).currentScan
      = (scanOutcome env top dev order2 st0).currentScan ∧
    (scanOutcome env top dev order1 st0).totalSize
      = (scanOutcome env top dev order2 st0).totalSize ∧
    (scanOutcome env top dev order1 st0).filesProcessed
      = (scanOutcome env top dev order2 st0).filesProcessed := by
  have hPid : ∀ (f : FileRow) (i : Nat),
      missingTarget env.fs top dev { f with id := i }
        = missingTarget env.fs top dev f := fun f i => rfl
  have hnd1 : order1.Nodup := h1.nodup_iff.mpr hnd
  have hnd2 : order2.Nodup := h2.nodup_iff.mpr hnd
  have hobs1 := processAll_obs env (missingTarget env.fs top dev) hPid dev
    order1 st0 hwf hnd1
  have hobs2 := processAll_obs env (missingTarget env.fs top dev) hPid dev
    order2 st0 hwf hnd2
  have hperm : order1.Perm order2 := h1.trans h2.symm
  have hsum : (order1.map (fun p => fileDelta env (missingTarget env.fs top dev)
        dev p st0.db)).sum
      = (order2.map (fun p => fileDelta env (missingTarget env.fs top dev)
        dev p st0.db)).sum := (hperm.map _).sum_eq
  have hobs : obsOf (missingTarget env.fs top dev)
        (processAll env st0 (order1.map (fun p => (p, dev))))
      = obsOf (missingTarget env.fs top dev)
        (processAll env st0 (order2.map (fun p => (p, dev)))) := by
    rw [hobs1, hobs2, hsum]
  simp only [obsOf, Prod.mk.injEq] at hobs
  obtain ⟨e1, e2, e3, e4, e5, e6, e7⟩ := hobs
  have hm1 := processAll_scanMeta env (order1.map (fun p => (p, dev))) st0
  have hm2 := processAll_scanMeta env (order2.map (fun p => (p, dev))) st0
  have hm : scanMeta (processAll env st0
        (order1.map (fun p => (p, dev)))).currentScan
      = scanMeta (processAll env st0
        (order2.map (fun p => (p, dev)))).currentScan := hm1.trans hm2.symm
  simp only [scanMeta, Prod.mk.injEq] at hm
  obtain ⟨m1, m2, m3, m4, m5, m6, m7, m8⟩ := hm
  have hcs : (processAll env st0 (order1.map (fun p => (p, dev)))).currentScan
      = (processAll env st0 (order2.map (fun p => (p, dev)))).currentScan := by
    apply ScanRow.ext m1 m2 m3 m4 m5
    · exact_mod_cast e2
    · exact_mod_cast e3
    · exact_mod_cast e4
    · exact m6
    · exact_mod_cast e5
    · exact m7
    · exact m8
  have hts : (processAll env st0 (order1.map (fun p => (p, dev)))).totalSize
      = (processAll env st0 (order2.map (fun p => (p, dev)))).totalSize := by
    exact_mod_cast e6
  have hlen : (find_missing_files env.fs top dev
        (processAll env st0 (order1.map (fun p => (p, dev)))).db).2.length
      = (find_missing_files env.fs top dev
        (processAll env st0 (order2.map (fun p => (p, dev)))).db).2.length := by
    rw [find_missing_len, find_missing_len]
    exact_mod_cast e7
  refine ⟨?_, hts, by exact_mod_cast e1⟩
  unfold scanOutcome finalizeScan
  dsimp only
  rw [hcs, hts, hlen]

/-- Two-file environment for the C4 witness. -/
def wEnvTwo : ScanEnv :=
  ⟨wHash, 4, [("/d/a.txt", wMd), ("/d/b.txt", ⟨true, 20, 200, some [1, 2]⟩)], 1000⟩

/-- Witness for C4: the two-file tree processed in the two possible orders
gives the same final scan row. -/
theorem scan_counters_worker_order_invariant_witness :
    (["/d/a.txt", "/d/b.txt"] : List String).Perm ["/d/a.txt", "/d/b.txt"] ∧
    (["/d/b.txt", "/d/a.txt"] : List String).Perm ["/d/a.txt", "/d/b.txt"] ∧
    (["/d/a.txt", "/d/b.txt"] : List String).Nodup ∧
    wStEmpty.db.wf ∧
    (scanOutcome wEnvTwo "/d" 1 ["/d/a.txt", "/d/b.txt"] wStEmpty).currentScan
      = (scanOutcome wEnvTwo "/d" 1 ["/d/b.txt", "/d/a.txt"] wStEmpty).currentScan :=
  ⟨List.Perm.refl _, List.Perm.swap _ _ _, by decide, by decide,
   (scan_counters_worker_order_invariant wEnvTwo "/d" 1 wStEmpty
      ["/d/a.txt", "/d/b.txt"] ["/d/a.txt", "/d/b.txt"] ["/d/b.txt", "/d/a.txt"]
      (List.Perm.refl _) (List.Perm.swap _ _ _) (by decide) (by decide)).1⟩

/-! ### The unsynchronized counter increments

In the source only `total_size` is updated under `size_lock`;
`self.files_processed += 1` and the four classification counter updates such
as `self.current_scan.files_unchanged += 1` are plain `+=` on objects shared
across the worker threads.  CPython executes such an increment as a load of
the field followed by a separate store of the incremented value and may
preempt the thread between the two, so two workers can both load the same
value and one increment is lost.  The refinement below splits one such
increment into its load and store halves for two workers. -/

/-- The shared scan row together with one thread-local register per worker
holding that worker's loaded counter value. -/
structure RacyIncState where
  scan : ScanRow
  reg1 : Option Nat
  reg2 : Option Nat
deriving DecidableEq, Repr

/-- One primitive event of the two workers' unsynchronized
`files_unchanged += 1`: the load half or the store half, per worker. -/
inductive RacyIncEvent where
  | load1
  | store1
  | load2
  | store2
deriving DecidableEq, Repr

/-- Interleaving semantics of the two unsynchronized increments: a load
copies the shared counter into the worker's register, a store writes the
register plus one back to the shared counter. -/
def racyIncStep (s : RacyIncState) : RacyIncEvent → RacyIncState
  | RacyIncEvent.load1 => { s with reg1 := some s.scan.filesUnchanged }
  | RacyIncEvent.store1 =>
    match s.reg1 with
    | some v => { s with scan := { s.scan with filesUnchanged := v + 1 } }
    | none => s
  | RacyIncEvent.load2 => { s with reg2 := some s.scan.filesUnchanged }
  | RacyIncEvent.store2 =>
    match s.reg2 with
    | some v => { s with scan := { s.scan with filesUnchanged := v + 1 } }
    | none => s

/-- Running a schedule of increment events over the shared scan row. -/
def racyIncRun (s : RacyIncState) (sched : List RacyIncEvent) : RacyIncState :=
  sched.foldl racyIncStep s

/-- C4 counterexample: two workers each classify their file as `unchanged`
through the embedded classifier and then perform the source's unsynchronized
`files_unchanged += 1`.  A single-worker run serializes the two increments
and the scan ends with the counter at 2; with several workers one thread can
be preempted between its load and its store, and the same scan ends with the
counter at 1 — so the final counters are not identical across worker counts
as the claim states. -/
theorem scan_counters_lost_update_counterexample :
    (classifyAndCount wScan "unchanged"
        (some ⟨5, 3, 0, "1ab", "sha256", 100, "unchanged", none⟩)
        "1ab" 100).1 = "unchanged" ∧
    (racyIncRun ⟨wScan, none, none⟩
        [RacyIncEvent.load1, RacyIncEvent.store1,
         RacyIncEvent.load2, RacyIncEvent.store2]).scan.filesUnchanged = 2 ∧
    (racyIncRun ⟨wScan, none, none⟩
        [RacyIncEvent.load1, RacyIncEvent.load2,
         RacyIncEvent.store1, RacyIncEvent.store2]).scan.filesUnchanged = 1 ∧
    (2 : Nat) ≠ 1 := by
  decide

end Bitarr
